import Mathlib

/-!
Shallow embedding of the coriolis-sim-3d simulation core (src/src/simulation
and src/src/state) over real arithmetic, together with proofs of the spec
claims about it.  Machine floats of the source are modelled as real numbers.
-/

open scoped Classical

noncomputable section

namespace CoriolisSim

/-- Three component cartesian vector, the embedding of nalgebra Vector3 of f64. -/
@[ext] structure V3 where
  x : ℝ
  y : ℝ
  z : ℝ

namespace V3

instance : Add V3 := ⟨fun a b => ⟨a.x + b.x, a.y + b.y, a.z + b.z⟩⟩
instance : Sub V3 := ⟨fun a b => ⟨a.x - b.x, a.y - b.y, a.z - b.z⟩⟩
instance : Neg V3 := ⟨fun a => ⟨-a.x, -a.y, -a.z⟩⟩
instance : SMul ℝ V3 := ⟨fun c a => ⟨c * a.x, c * a.y, c * a.z⟩⟩
instance : Zero V3 := ⟨⟨0, 0, 0⟩⟩
instance : HDiv V3 ℝ V3 := ⟨fun a c => ⟨a.x / c, a.y / c, a.z / c⟩⟩

/-- Dot product. -/
def dot (a b : V3) : ℝ := a.x * b.x + a.y * b.y + a.z * b.z

/-- Cross product. -/
def cross (a b : V3) : V3 :=
  ⟨a.y * b.z - a.z * b.y, a.z * b.x - a.x * b.z, a.x * b.y - a.y * b.x⟩

/-- Euclidean norm. -/
def norm (v : V3) : ℝ := Real.sqrt (v.dot v)

end V3

/-- Rust f64 to_radians. -/
def to_radians (x : ℝ) : ℝ := x * (Real.pi / 180)

/-- Rust f64 to_degrees. -/
def to_degrees (x : ℝ) : ℝ := x * (180 / Real.pi)

/-- Rust f64 atan2: y.atan2(x) is the argument of the point (x, y). -/
def atan2 (y x : ℝ) : ℝ := Complex.arg ⟨x, y⟩

/-- Earth angular speed in radians per second (src/src/simulation/mod.rs). -/
def OMEGA : ℝ := 7.29212351699e-5

/-- Earth mass multiplied by G in cubic metres per square second. -/
def GM : ℝ := 3.986004418e14

/-- Earth equatorial radius. -/
def R_EQU : ℝ := 6378137.0

/-- Earth polar radius. -/
def R_POL : ℝ := 6356752.0

/-- Earth oblateness. -/
def ECC2 : ℝ := (R_EQU * R_EQU - R_POL * R_POL) / R_EQU / R_EQU

/-- Prime vertical radius of curvature (fn nphi in src/src/simulation/mod.rs). -/
def nphi (lat_r : ℝ) : ℝ :=
  R_EQU / Real.sqrt (1 - ECC2 * Real.sin lat_r * Real.sin lat_r)

/-- Fn pr in src/src/simulation/mod.rs. -/
def pr (lat_r elev : ℝ) : ℝ := (nphi lat_r + elev) * Real.cos lat_r

/-- Fn pz in src/src/simulation/mod.rs. -/
def pz (lat_r elev : ℝ) : ℝ := (nphi lat_r * (1 - ECC2) + elev) * Real.sin lat_r

/-- Geodetic coordinates to cartesian (src/src/simulation/mod.rs). -/
def lat_lon_elev_to_vec3 (lat lon elev : ℝ) : V3 :=
  let lat := to_radians lat
  let lon := to_radians lon
  let x := pr lat elev
  let y := pz lat elev
  ⟨x * Real.sin lon, y, x * Real.cos lon⟩

/-- Geometric surface radius at a geocentric latitude (src/src/simulation/mod.rs). -/
def earth_radius (lat_r_gc : ℝ) : ℝ :=
  let x := Real.cos lat_r_gc / R_EQU
  let y := Real.sin lat_r_gc / R_POL
  1 / Real.sqrt (x * x + y * y)

/-- Outward unit normal of the ellipsoidal surface (src/src/simulation/mod.rs). -/
def surface_normal (pos : V3) : V3 :=
  let v : V3 := ⟨pos.x / R_EQU / R_EQU, pos.y / R_POL / R_POL, pos.z / R_EQU / R_EQU⟩
  let v_norm := v.norm
  v / v_norm

/-- Radius of curvature of the oblate spheroid (src/src/simulation/mod.rs). -/
def r_curv (pos : V3) : ℝ :=
  let r2 := pos.dot pos
  let coeff := Real.sqrt (R_EQU * R_EQU + R_POL * R_POL - r2)
  coeff * coeff * coeff / R_EQU / R_POL

/-- Modelled from the spec: the function air_density is called by the source under
src but its defining file is not included in the repository snapshot; the spec
gives the formula 1.225 * exp(-1.25e-4 * elevation). -/
def air_density (elev : ℝ) : ℝ := 1.225 * Real.exp (-1.25e-4 * elev)

/-- Frame relative position (src/src/simulation/position.rs): cartesian
coordinates in a frame rotating at angular rate omega, plus a timestamp. -/
structure Position where
  t : ℝ
  pos : V3
  omega : ℝ

namespace Position

/-- Constructor from geodetic coordinates (src/src/simulation/position.rs). -/
def from_lat_lon_elev (lat lon elev : ℝ) : Position :=
  ⟨0, lat_lon_elev_to_vec3 lat lon elev, OMEGA⟩

/-- Builder replacing the timestamp. -/
def with_t (p : Position) (t : ℝ) : Position := { p with t := t }

/-- Frame conversion: no-op when the rate is unchanged, otherwise a rotation by
(omega_old - omega_new) * t about the polar axis. -/
def to_omega (p : Position) (omega : ℝ) : Position :=
  if p.omega = omega then p
  else
    let wt := (p.omega - omega) * p.t
    let s := Real.sin wt
    let c := Real.cos wt
    ⟨p.t, ⟨p.pos.x * c + p.pos.z * s, p.pos.y, -p.pos.x * s + p.pos.z * c⟩, omega⟩

/-- Conversion of a free vector between frames (src/src/simulation/position.rs). -/
def dir_to_omega (p : Position) (vec : V3) (omega : ℝ) : V3 :=
  let w := omega - p.omega
  let wt := w * p.t
  let s := Real.sin wt
  let c := Real.cos wt
  ⟨vec.x * c - vec.z * s, vec.y, vec.x * s + vec.z * c⟩

/-- Gravitational acceleration, inverse square law. -/
def grav (p : Position) (gm : ℝ) : V3 :=
  let r := p.pos.norm
  (-gm / r / r / r) • p.pos

/-- Centrifugal acceleration. -/
def centrifugal (p : Position) : V3 :=
  let r_xz : V3 := ⟨p.pos.x, 0, p.pos.z⟩
  (p.omega * p.omega) • r_xz

/-- In place shift of the coordinates, functional rendering of fn increase. -/
def increase (p : Position) (v : V3) : Position := { p with pos := p.pos + v }

/-- In place shift of the timestamp. -/
def increase_time (p : Position) (dt : ℝ) : Position := { p with t := p.t + dt }

/-- In place scaling of the coordinates, functional rendering of fn mul. -/
def mul (p : Position) (x : ℝ) : Position := { p with pos := x • p.pos }

end Position

/-- Frame relative velocity (src/src/simulation/velocity.rs). -/
structure Velocity where
  vel : V3
  omega : ℝ

namespace Velocity

/-- Frame conversion of a velocity; requires the paired position because the
change of rotating frame adds a term proportional to the coordinates. -/
def to_omega (v : Velocity) (pos : Position) (omega : ℝ) : Velocity :=
  if v.omega = omega then v
  else
    let pos := pos.to_omega v.omega
    let t := pos.t
    let p := pos.pos
    let dw := omega - v.omega
    let wt := dw * t
    let s := Real.sin wt
    let c := Real.cos wt
    let z2 := v.vel.z + p.x * dw
    let x2 := v.vel.x - p.z * dw
    ⟨⟨x2 * c - z2 * s, v.vel.y, x2 * s + z2 * c⟩, omega⟩

/-- Coriolis acceleration. -/
def coriolis (v : Velocity) : V3 := (-2 : ℝ) • V3.cross ⟨0, v.omega, 0⟩ v.vel

/-- In place shift, functional rendering of fn increase. -/
def increase (v : Velocity) (w : V3) : Velocity := { v with vel := v.vel + w }

/-- In place scaling, functional rendering of fn mul. -/
def mul (v : Velocity) (x : ℝ) : Velocity := { v with vel := x • v.vel }

end Velocity

/-- Effective gravity (gravitational plus centrifugal acceleration) at a
position converted to the earth frame, as used by from_east_north_up. -/
def effGrav (pos : Position) : V3 :=
  let p := pos.to_omega OMEGA
  p.grav GM + p.centrifugal

/-- Local up direction used by the east-north-up basis: normalized opposite of
effective gravity at the position converted to the earth frame. -/
def enuUp (pos : Position) : V3 :=
  let eff_grav := effGrav pos
  (-eff_grav) / eff_grav.norm

/-- Local geometric east direction used by the east-north-up basis. -/
def enuEast (pos : Position) : V3 :=
  let p := pos.to_omega OMEGA
  let lon := atan2 p.pos.x p.pos.z
  ⟨Real.cos lon, 0, -Real.sin lon⟩

/-- Velocity from local east, north and up components
(src/src/simulation/velocity.rs). -/
def Velocity.from_east_north_up (pos : Position) (e n u : ℝ) : Velocity :=
  let old_omega := pos.omega
  let pos2 := pos.to_omega OMEGA
  let up := enuUp pos2
  let east := enuEast pos2
  let north := up.cross east
  let vel : Velocity := ⟨e • east + n • north + u • up, OMEGA⟩
  vel.to_omega pos2 old_omega

/-- Modelled from the spec: the function pos_to_lat_lon_elev is called by the
source under src but its defining file is not in the repository snapshot; the
spec describes it as the inverse projection from cartesian coordinates to
geodetic latitude, longitude and elevation, solved by a bounded iteration (at
most 5 rounds) for the geodetic latitude.  Only the elevation component is
consumed by the embedded code, through air_density inside drag. -/
def pos_to_lat_lon_elev (pos : V3) : ℝ × ℝ × ℝ :=
  let lon := atan2 pos.x pos.z
  let rho := Real.sqrt (pos.x * pos.x + pos.z * pos.z)
  let it : ℝ → ℝ := fun lat => atan2 (pos.y + ECC2 * nphi lat * Real.sin lat) rho
  let lat := it (it (it (it (it (atan2 pos.y rho)))))
  let elev := rho / Real.cos lat - nphi lat
  (to_degrees lat, to_degrees lon, elev)

/-- Maximal length of the stored trajectory history
(src/src/simulation/object.rs). -/
def MAX_PATH_LEN : ℕ := 50000

/-- Flight state tag of an object (src/src/simulation/object.rs). -/
inductive ObjectState where
  | FreeFlight : ObjectState
  | ConstantAltitude : ℝ → ObjectState

/-- Current kinematic state of an object. -/
structure SimState where
  pos : Position
  vel : Velocity

namespace SimState

/-- Horizontal opposite of the Coriolis acceleration, expressed back in the
frame of the position (src/src/simulation/object.rs). -/
def coriolis_counteraction (s : SimState) : V3 :=
  let pos := s.pos.to_omega OMEGA
  let vel := s.vel.to_omega s.pos OMEGA
  let up := surface_normal pos.pos
  let coriolis := vel.coriolis
  let horizontal_coriolis := coriolis - (up.dot coriolis) • up
  pos.dir_to_omega (-horizontal_coriolis) s.pos.omega

/-- Friction force, proportional to the difference between the surface
co-rotation velocity and the current velocity (src/src/simulation/object.rs). -/
def friction (s : SimState) (friction : ℝ) : V3 :=
  let o := OMEGA - s.pos.omega
  let vel := (s.vel.to_omega s.pos s.pos.omega).vel
  let surf_vel : V3 := ⟨o * s.pos.pos.z, 0, -(o * s.pos.pos.x)⟩
  friction • (surf_vel - vel)

/-- Quadratic drag scaled by the local air density
(src/src/simulation/object.rs). -/
def drag (s : SimState) (drag_coeff : ℝ) : V3 :=
  let o := OMEGA - s.pos.omega
  let elev := (pos_to_lat_lon_elev (s.pos.to_omega OMEGA).pos).2.2
  let density := air_density elev
  let vel := (s.vel.to_omega s.pos s.pos.omega).vel
  let surf_vel : V3 := ⟨o * s.pos.pos.z, 0, -(o * s.pos.pos.x)⟩
  let vel_diff := surf_vel - vel
  (drag_coeff * density * vel_diff.norm) • vel_diff

end SimState

/-- The 7 component derivative exchanged with the integrator: 3 position rate
components, 3 acceleration components and the time rate. -/
structure Deriv7 where
  dpos : V3
  dvel : V3
  dt : ℝ

instance : Add Deriv7 :=
  ⟨fun a b => ⟨a.dpos + b.dpos, a.dvel + b.dvel, a.dt + b.dt⟩⟩
instance : SMul ℝ Deriv7 := ⟨fun c a => ⟨c • a.dpos, c • a.dvel, c * a.dt⟩⟩

/-- The simulated body (src/src/simulation/object.rs). -/
structure Object where
  sim_state : SimState
  color : ℝ × ℝ × ℝ
  radius : ℝ
  path : List SimState
  gm : ℝ
  drag_coeff : ℝ
  friction : ℝ
  attractor : Option (Position → V3)
  counteract_coriolis : Bool
  state : ObjectState

namespace Object

/-- Constructor (src/src/simulation/object.rs). -/
def new (pos : Position) (vel : Velocity) : Object :=
  { sim_state := ⟨pos, vel⟩
    color := (1.0, 0.0, 0.0)
    radius := 200e3
    path := []
    gm := GM
    drag_coeff := 0.0
    friction := 0.0
    attractor := none
    counteract_coriolis := false
    state := ObjectState.FreeFlight }

/-- Builder setting the color. -/
def with_color (o : Object) (r g b : ℝ) : Object := { o with color := (r, g, b) }

/-- Builder setting the radius. -/
def with_radius (o : Object) (radius : ℝ) : Object := { o with radius := radius }

/-- Builder setting the gravitational parameter. -/
def with_gm (o : Object) (gm : ℝ) : Object := { o with gm := gm }

/-- Builder setting the drag coefficient. -/
def with_drag (o : Object) (drag : ℝ) : Object := { o with drag_coeff := drag }

/-- Builder setting the friction coefficient. -/
def with_friction (o : Object) (friction : ℝ) : Object :=
  { o with friction := friction }

/-- Builder setting the constant altitude state. -/
def with_const_alt (o : Object) (alt : ℝ) : Object :=
  { o with state := ObjectState.ConstantAltitude alt }

/-- Builder installing the pendulum restoring attractor. -/
def as_pendulum (o : Object) (coeff : ℝ) : Object :=
  let pos0 := o.sim_state.pos
  { o with attractor := some (fun pos =>
      coeff • ((pos0.to_omega pos.omega).pos - pos.pos)) }

/-- Builder installing a custom attractor. -/
def with_attractor (o : Object) (attractor : Position → V3) : Object :=
  { o with attractor := some attractor }

/-- Builder setting the Coriolis counteraction flag. -/
def with_counteract_coriolis (o : Object) (b : Bool) : Object :=
  { o with counteract_coriolis := b }

/-- Current time of the object. -/
def time (o : Object) : ℝ := o.sim_state.pos.t

/-- Current position of the object. -/
def pos (o : Object) : Position := o.sim_state.pos

/-- Current velocity of the object. -/
def vel (o : Object) : Velocity := o.sim_state.vel

/-- Free flight derivative: gravity, centrifugal, Coriolis and drag. -/
def derivative_inflight (o : Object) : Deriv7 :=
  let drag := o.sim_state.drag o.drag_coeff
  let vel := o.vel.to_omega o.pos o.pos.omega
  let acc := o.pos.grav o.gm + o.pos.centrifugal + vel.coriolis + drag
  ⟨vel.vel, acc, 1.0⟩

/-- Acceleration contributed by the optional attractor. -/
def attraction_force (o : Object) : V3 :=
  match o.attractor with
  | some attractor => attractor o.sim_state.pos
  | none => 0

/-- Constant altitude derivative: Coriolis, friction, drag, attraction and
optional counteraction, then the surface curvature correction of the normal
component (src/src/simulation/object.rs). -/
def derivative_const_alt (o : Object) (alt : ℝ) : Deriv7 :=
  let vel := o.vel.to_omega o.pos o.pos.omega
  let coriolis_counteraction :=
    if o.counteract_coriolis then o.sim_state.coriolis_counteraction
    else (⟨0.0, 0.0, 0.0⟩ : V3)
  let acc := vel.coriolis + o.sim_state.friction o.friction
    + o.sim_state.drag o.drag_coeff + o.attraction_force + coriolis_counteraction
  let velv := vel.vel
  let up := surface_normal o.pos.pos
  let v := velv.norm
  let r := r_curv o.pos.pos
  let acc_up := acc.dot up
  let acc2 := acc + (-v * v / (r + alt) - acc_up) • up
  ⟨velv, acc2, 1.0⟩

/-- Derivative dispatching on the flight state. -/
def derivative (o : Object) : Deriv7 :=
  match o.state with
  | ObjectState.FreeFlight => o.derivative_inflight
  | ObjectState.ConstantAltitude alt => o.derivative_const_alt alt

/-- In place state shift used by the integrator (impl State for Object). -/
def shift_in_place (o : Object) (dir : Deriv7) (amount : ℝ) : Object :=
  { o with sim_state :=
      ⟨((o.sim_state.pos.increase (amount • dir.dpos)).increase_time
          (amount * dir.dt)),
        o.sim_state.vel.increase (amount • dir.dvel)⟩ }

/-- Push the current state onto the bounded history, dropping the oldest entry
on overflow (first lines of fn step). -/
def push_path (o : Object) : Object :=
  let path := o.path ++ [o.sim_state]
  let path := if MAX_PATH_LEN < path.length then path.tail else path
  { o with path := path }

/-- Check frame image of the velocity stored by the surface snap: the
velocity of the post integration object converted to the inertial frame,
scaled by r over target_r, converted back to the frame of the scaled
position, and finally converted to the earth frame using the pre-snap
position, exactly as fn step does between lines 236 and 242. -/
def snapVel2 (o : Object) (pos : Position) (r target_r : ℝ) : Velocity :=
  let scaledPos := o.pos.mul (target_r / r)
  (((o.vel.to_omega o.pos 0).mul (r / target_r)).to_omega scaledPos
      scaledPos.omega).to_omega pos OMEGA

/-- Transition effect of fn step once a target radius has been selected
(src/src/simulation/object.rs lines 233 to 248): set the state, snap the
position outward, rescale the velocity, cancel a negative normal component. -/
def snapCore (o : Object) (pos : Position) (r earth_r target_r : ℝ) : Object :=
  let o1 := { o with state := ObjectState.ConstantAltitude (target_r - earth_r) }
  let o2 := { o1 with sim_state :=
    { o1.sim_state with pos := o1.sim_state.pos.mul (target_r / r) } }
  let o3 := { o2 with sim_state :=
    { o2.sim_state with vel := ((o.vel.to_omega o.pos 0).mul
        (r / target_r)).to_omega o2.pos o2.pos.omega } }
  let normal := surface_normal pos.pos
  let vel2 := snapVel2 o pos r target_r
  let v_up := vel2.vel.dot normal
  if v_up < 0 then
    { o3 with sim_state :=
      { o3.sim_state with vel := (vel2.increase
          ((-v_up) • normal)).to_omega o3.pos o3.vel.omega } }
  else o3

/-- Surface contact check run after every integration step (fn step,
src/src/simulation/object.rs lines 222 to 248). -/
def surface_check (o : Object) : Object :=
  let pos := o.pos.to_omega OMEGA
  let r := pos.pos.norm
  let lat_r_gc := Real.arcsin (pos.pos.y / r)
  let earth_r := earth_radius lat_r_gc
  let maybe_target_r : Option ℝ :=
    match o.state with
    | ObjectState.FreeFlight => if r < earth_r then some earth_r else none
    | ObjectState.ConstantAltitude alt => some (earth_r + alt)
  match maybe_target_r with
  | none => o
  | some target_r => snapCore o pos r earth_r target_r

/-- Net effect of one integration call: the integrator repeatedly evaluates
the derivative and shifts the state in place; its total effect on an object is
a single shift by some derivative vector computed from the pre-step object. -/
def postIntegration (f : Object → Deriv7) (o : Object) : Object :=
  (o.push_path).shift_in_place (f o.push_path) 1

/-- One simulation step with an arbitrary integrator given by its net shift:
push the history, integrate, then run the surface contact check. -/
def stepWith (f : Object → Deriv7) (o : Object) : Object :=
  (postIntegration f o).surface_check

end Object

/-- Modelled from the spec: the 4th order Runge Kutta integrator lives in the
external numeric_algs crate and is not part of this repository; the spec
describes it as four derivative evaluations (at the state, at the state
shifted by half a step along the first and second evaluations, and at the
state shifted by a full step along the third) combined with weights
1, 2, 2, 1 over 6 and applied as a single full step shift from the original
state.  This definition is its net shift, to be fed to stepWith. -/
def rk4Net (deriv : Object → Deriv7) (dt : ℝ) (o : Object) : Deriv7 :=
  let k1 := deriv o
  let k2 := deriv (o.shift_in_place k1 (dt / 2))
  let k3 := deriv (o.shift_in_place k2 (dt / 2))
  let k4 := deriv (o.shift_in_place k3 dt)
  (dt / 6) • (k1 + (2 : ℝ) • k2 + (2 : ℝ) • k3 + k4)

/-- One simulation step of the program: RK4 integration over dt followed by
the surface contact check (fn step with the RK4Integrator of main.rs). -/
def Object.step (o : Object) (dt : ℝ) : Object :=
  Object.stepWith (rk4Net Object.derivative dt) o

/-- Run a sequence of steps with the RK4 integrator, one time step per tick. -/
def runSteps (dts : List ℝ) (o : Object) : Object :=
  dts.foldl (fun acc dt => acc.step dt) o

/-- Run a sequence of steps with arbitrary integrators. -/
def runWith (fs : List (Object → Deriv7)) (o : Object) : Object :=
  fs.foldl (fun acc f => Object.stepWith f acc) o

/-- The pre-step states pushed onto the history along a run. -/
def stepTrace (dts : List ℝ) (o : Object) : List SimState :=
  match dts with
  | [] => []
  | dt :: rest => o.sim_state :: stepTrace rest (o.step dt)

/-- History invariant: bounded length, strictly chronological timestamps, all
strictly before the current time. -/
def pathInvariant (o : Object) : Prop :=
  o.path.length ≤ MAX_PATH_LEN
    ∧ (o.path.map (fun s => s.pos.t)).Chain' (· < ·)
    ∧ ∀ s ∈ o.path, s.pos.t < o.time

/-- Coordinates reached by moving a given distance along a great circle from a
starting point at a given azimuth, on the reference sphere of radius 6371 km
(src/src/state/utils.rs). -/
def get_coords_at_dist (lat lon dir dist : ℝ) : ℝ × ℝ :=
  let lat := to_radians lat
  let lon := to_radians lon
  let dir := to_radians dir
  let ang := dist / 6371e3
  let v_pos : V3 := ⟨Real.cos lat * Real.cos lon, Real.cos lat * Real.sin lon,
    Real.sin lat⟩
  let v_e : V3 := ⟨-Real.sin lon, Real.cos lon, 0⟩
  let v_n := v_pos.cross v_e
  let v_dir := Real.cos dir • v_n + Real.sin dir • v_e
  let fpos := Real.cos ang • v_pos + Real.sin ang • v_dir
  let fpos := fpos / fpos.norm
  let new_lat := to_degrees (Real.arcsin fpos.z)
  let new_lon := to_degrees (atan2 fpos.y fpos.x)
  (new_lat, new_lon)

/-- Unit direction vector of a latitude and longitude pair in radians, in the
convention used inside get_coords_at_dist. -/
def unitSphereDir (lat lon : ℝ) : V3 :=
  ⟨Real.cos lat * Real.cos lon, Real.cos lat * Real.sin lon, Real.sin lat⟩

/-- Pre-normalization direction vector computed inside get_coords_at_dist:
the start direction advanced by the angular distance along the great circle
at the given azimuth. -/
def gcFpos (lat lon dir dist : ℝ) : V3 :=
  let lat := to_radians lat
  let lon := to_radians lon
  let dir := to_radians dir
  let ang := dist / 6371e3
  let v_pos : V3 := ⟨Real.cos lat * Real.cos lon, Real.cos lat * Real.sin lon,
    Real.sin lat⟩
  let v_e : V3 := ⟨-Real.sin lon, Real.cos lon, 0⟩
  let v_n := v_pos.cross v_e
  let v_dir := Real.cos dir • v_n + Real.sin dir • v_e
  Real.cos ang • v_pos + Real.sin ang • v_dir

/-- Ring of objects moving outward, tangentially to a common center
(src/src/state/utils.rs). -/
def anticyclone (lat lon elev vel vel_up : ℝ) (num_objects : ℕ)
    (color : ℝ × ℝ × ℝ) : List Object :=
  let pos := Position.from_lat_lon_elev lat lon elev
  (List.range num_objects).map (fun (index : ℕ) =>
    let azim := 2 * Real.pi / (num_objects : ℝ) * (index : ℝ)
    let vel_n := vel * Real.cos azim
    let vel_e := vel * Real.sin azim
    let vel := Velocity.from_east_north_up pos vel_e vel_n vel_up
    ((Object.new pos vel).with_color color.1 color.2.1 color.2.2).with_radius
      100e3)

/-- Ring of objects around a center, moving tangentially, with a center
seeking attractor (src/src/state/utils.rs). -/
def cyclone (lat lon elev radius attractor_coeff vel vel_up : ℝ)
    (num_objects : ℕ) (color : ℝ × ℝ × ℝ) : List Object :=
  let center_pos := Position.from_lat_lon_elev lat lon elev
  (List.range num_objects).map (fun (index : ℕ) =>
    let azim := 2 * Real.pi / (num_objects : ℝ) * (index : ℝ)
    let nl := get_coords_at_dist lat lon (to_degrees azim) radius
    let pos := Position.from_lat_lon_elev nl.1 nl.2 elev
    let vel_n := -vel * Real.cos azim
    let vel_e := -vel * Real.sin azim
    let vel := Velocity.from_east_north_up pos vel_e vel_n vel_up
    (((Object.new pos vel).with_color color.1 color.2.1
        color.2.2).with_radius 100e3).with_attractor (fun pos =>
      let pos_diff := (center_pos.to_omega pos.omega).pos - pos.pos
      let pos_norm := pos_diff.norm
      (attractor_coeff / pos_norm / pos_norm) • pos_diff))

/-- Helper of the UI layer building a single object from geodetic coordinates
and east, north, up velocity components (src/src/state/description.rs). -/
def create_object (lat lon elev v_e v_n v_u : ℝ) : Object :=
  let pos := Position.from_lat_lon_elev lat lon elev
  let vel := Velocity.from_east_north_up pos v_e v_n v_u
  Object.new pos vel

/-- Kind of object entered in the UI (src/src/state/description.rs).  The
String fields of the source hold UI text that is parsed at use sites with
parse().unwrap_or(default); the embedding carries the outcome of the parse as
an Option, so a failed parse is the value none. -/
inductive ObjectKind where
  | Free : Option ℝ → Option ℝ → Option ℝ → ObjectKind
  | Cyclone : Option ℕ → Option ℝ → Option ℝ → ObjectKind
  | Anticyclone : Option ℕ → Option ℝ → ObjectKind
  | Foucault : Option ℝ → Option ℝ → ObjectKind

/-- UI object description (src/src/state/description.rs), with text fields
embedded as the outcome of parsing them. -/
structure ObjectDescription where
  lat : Option ℝ
  lon : Option ℝ
  elev : Option ℝ
  color : ℝ × ℝ × ℝ
  kind : ObjectKind

namespace ObjectDescription

/-- Parsed latitude with fallback 0 (fn lat_f, parse().unwrap_or(0.0)). -/
def lat_f (d : ObjectDescription) : ℝ := d.lat.getD 0

/-- Parsed longitude with fallback 0. -/
def lon_f (d : ObjectDescription) : ℝ := d.lon.getD 0

/-- Parsed elevation with fallback 0. -/
def elev_f (d : ObjectDescription) : ℝ := d.elev.getD 0

/-- Construction of the simulation objects from a UI description
(src/src/state/description.rs).  Every failed parse falls back to 0 (0.0 for
real valued fields, 0 for the particle count). -/
def into_objects (d : ObjectDescription) : List Object :=
  match d.kind with
  | ObjectKind.Free vel_n vel_e vel_u =>
    let vel_e := vel_e.getD 0
    let vel_n := vel_n.getD 0
    let vel_u := vel_u.getD 0
    [(create_object d.lat_f d.lon_f d.elev_f vel_e vel_n vel_u).with_color
      d.color.1 d.color.2.1 d.color.2.2]
  | ObjectKind.Cyclone n_particles radius vel =>
    let n_particles := n_particles.getD 0
    let radius := radius.getD 0
    let vel := vel.getD 0
    cyclone d.lat_f d.lon_f d.elev_f (radius * 1000.0) 2e4 vel 0.0 n_particles
      d.color
  | ObjectKind.Anticyclone n_particles vel =>
    let n_particles := n_particles.getD 0
    let vel := vel.getD 0
    anticyclone d.lat_f d.lon_f d.elev_f vel 0.0 n_particles d.color
  | ObjectKind.Foucault vel azim =>
    let azim := to_radians (azim.getD 0)
    let vel := vel.getD 0
    let vel_e := vel * Real.sin azim
    let vel_n := vel * Real.cos azim
    [((create_object d.lat_f d.lon_f d.elev_f vel_e vel_n 0.0).with_color
        d.color.1 d.color.2.1 d.color.2.2).as_pendulum 2e-6]

end ObjectDescription

/-- Replacement of every failed parse in a kind by its defined default. -/
def normalizeKind : ObjectKind → ObjectKind
  | ObjectKind.Free a b c =>
    ObjectKind.Free (some (a.getD 0)) (some (b.getD 0)) (some (c.getD 0))
  | ObjectKind.Cyclone a b c =>
    ObjectKind.Cyclone (some (a.getD 0)) (some (b.getD 0)) (some (c.getD 0))
  | ObjectKind.Anticyclone a b =>
    ObjectKind.Anticyclone (some (a.getD 0)) (some (b.getD 0))
  | ObjectKind.Foucault a b =>
    ObjectKind.Foucault (some (a.getD 0)) (some (b.getD 0))

/-- Replacement of every failed parse in a description by its defined
default value. -/
def normalizeDesc (d : ObjectDescription) : ObjectDescription :=
  { lat := some d.lat_f
    lon := some d.lon_f
    elev := some d.elev_f
    color := d.color
    kind := normalizeKind d.kind }

/-- Rotation about the polar axis in the convention of Position.to_omega. -/
def rotFrame (wt : ℝ) (v : V3) : V3 :=
  ⟨v.x * Real.cos wt + v.z * Real.sin wt, v.y,
    -v.x * Real.sin wt + v.z * Real.cos wt⟩

/-- Post integration position converted to the earth frame, the position in
which fn step checks the transition trigger. -/
def checkPos (f : Object → Deriv7) (o : Object) : Position :=
  (Object.postIntegration f o).pos.to_omega OMEGA

/-- Radial distance checked by fn step against the surface radius. -/
def checkR (f : Object → Deriv7) (o : Object) : ℝ := (checkPos f o).pos.norm

/-- Local geometric surface radius at the geocentric latitude of the post
integration position, as computed by fn step. -/
def checkEarthR (f : Object → Deriv7) (o : Object) : ℝ :=
  earth_radius (Real.arcsin ((checkPos f o).pos.y / checkR f o))

/-- Inertial frame velocity of the post integration object, the quantity whose
magnitude the surface snap rescales. -/
def snapVel0 (f : Object → Deriv7) (o : Object) : Velocity :=
  (Object.postIntegration f o).vel.to_omega (Object.postIntegration f o).pos 0

/-- Cancellation of a negative velocity component along the surface normal,
as performed by fn step on the check frame velocity (src/src/simulation/
object.rs lines 240 to 247): when the normal component is negative the
opposite of that component times the normal is added, otherwise the velocity
is left alone. -/
def cancelVel (v : Velocity) (normal : V3) : Velocity :=
  let v_up := v.vel.dot normal
  if v_up < 0 then v.increase ((-v_up) • normal) else v

/-- Integrator net shift that leaves the state untouched, used as a concrete
instantiation in witnesses. -/
def fZero : Object → Deriv7 := fun _ => ⟨⟨0, 0, 0⟩, ⟨0, 0, 0⟩, 0⟩

/-- Concrete position one metre above the north pole axis, in the earth
frame, used as a witness input. -/
def wPosPolar : Position := ⟨0, ⟨0, 1, 0⟩, OMEGA⟩

/-- Concrete zero velocity in the earth frame, used as a witness input. -/
def wVelZero : Velocity := ⟨⟨0, 0, 0⟩, OMEGA⟩

/-- Concrete witness object: at rest one metre from the planet center on the
polar axis, in free flight. -/
def wObj : Object := Object.new wPosPolar wVelZero

/-- Concrete counterexample object for the curvature correction claim: a unit
speed object at the cartesian point whose squared radius makes the curvature
coefficient collapse to 1, with altitude 1. -/
def cexObjC2 : Object :=
  (Object.new ⟨0, ⟨0, Real.sqrt (R_EQU * R_EQU + R_POL * R_POL - 1), 0⟩, OMEGA⟩
    ⟨⟨1, 0, 0⟩, OMEGA⟩).with_const_alt 1

/-! Helper lemmas about the vector operations. -/

namespace V3

@[simp] theorem add_x (a b : V3) : (a + b).x = a.x + b.x := rfl

@[simp] theorem add_y (a b : V3) : (a + b).y = a.y + b.y := rfl

@[simp] theorem add_z (a b : V3) : (a + b).z = a.z + b.z := rfl

@[simp] theorem sub_x (a b : V3) : (a - b).x = a.x - b.x := rfl

@[simp] theorem sub_y (a b : V3) : (a - b).y = a.y - b.y := rfl

@[simp] theorem sub_z (a b : V3) : (a - b).z = a.z - b.z := rfl

@[simp] theorem neg_x (a : V3) : (-a).x = -a.x := rfl

@[simp] theorem neg_y (a : V3) : (-a).y = -a.y := rfl

@[simp] theorem neg_z (a : V3) : (-a).z = -a.z := rfl

@[simp] theorem smul_x (c : ℝ) (a : V3) : (c • a).x = c * a.x := rfl

@[simp] theorem smul_y (c : ℝ) (a : V3) : (c • a).y = c * a.y := rfl

@[simp] theorem smul_z (c : ℝ) (a : V3) : (c • a).z = c * a.z := rfl

@[simp] theorem div_x (a : V3) (c : ℝ) : (a / c).x = a.x / c := rfl

@[simp] theorem div_y (a : V3) (c : ℝ) : (a / c).y = a.y / c := rfl

@[simp] theorem div_z (a : V3) (c : ℝ) : (a / c).z = a.z / c := rfl

@[simp] theorem zero_x : (0 : V3).x = 0 := rfl

@[simp] theorem zero_y : (0 : V3).y = 0 := rfl

@[simp] theorem zero_z : (0 : V3).z = 0 := rfl

theorem dot_self_nonneg (v : V3) : 0 ≤ v.dot v := by
  unfold dot
  have hx := mul_self_nonneg v.x
  have hy := mul_self_nonneg v.y
  have hz := mul_self_nonneg v.z
  linarith

theorem dot_self_eq_zero_iff (v : V3) : v.dot v = 0 ↔ v = 0 := by
  unfold dot
  constructor
  · intro h
    have hx : v.x = 0 := by nlinarith [sq_nonneg v.x, sq_nonneg v.y, sq_nonneg v.z]
    have hy : v.y = 0 := by nlinarith [sq_nonneg v.x, sq_nonneg v.y, sq_nonneg v.z]
    have hz : v.z = 0 := by nlinarith [sq_nonneg v.x, sq_nonneg v.y, sq_nonneg v.z]
    cases v
    simp_all
    rfl
  · intro h
    subst h
    simp

theorem dot_self_pos (v : V3) (h : v ≠ 0) : 0 < v.dot v :=
  lt_of_le_of_ne (dot_self_nonneg v)
    (fun h0 => h ((dot_self_eq_zero_iff v).mp h0.symm))

theorem norm_nonneg (v : V3) : 0 ≤ v.norm := Real.sqrt_nonneg _

theorem mul_self_norm (v : V3) : v.norm * v.norm = v.dot v :=
  Real.mul_self_sqrt (dot_self_nonneg v)

theorem norm_pos (v : V3) (h : v ≠ 0) : 0 < v.norm :=
  Real.sqrt_pos.mpr (dot_self_pos v h)

theorem smul_dot (c : ℝ) (a b : V3) : (c • a).dot b = c * a.dot b := by
  unfold dot; simp; ring

theorem add_dot (a b c : V3) : (a + b).dot c = a.dot c + b.dot c := by
  unfold dot; simp; ring

theorem norm_smul (c : ℝ) (v : V3) : (c • v).norm = |c| * v.norm := by
  unfold norm
  have h : (c • v).dot (c • v) = c ^ 2 * v.dot v := by unfold dot; simp; ring
  rw [h, Real.sqrt_mul (sq_nonneg c), Real.sqrt_sq_eq_abs]

theorem cross_dot_left (a b : V3) : (a.cross b).dot a = 0 := by
  unfold cross dot; simp; ring

theorem cross_dot_right (a b : V3) : (a.cross b).dot b = 0 := by
  unfold cross dot; simp; ring

theorem cross_dot_self (a b : V3) :
    (a.cross b).dot (a.cross b) = a.dot a * b.dot b - a.dot b * (a.dot b) := by
  unfold cross dot; simp; ring

theorem dot_comm (a b : V3) : a.dot b = b.dot a := by unfold dot; ring

end V3

/-! Helper lemmas about frame conversion. -/

theorem Position.to_omega_eq (p : Position) (w : ℝ) :
    p.to_omega w = ⟨p.t, rotFrame ((p.omega - w) * p.t) p.pos, w⟩ := by
  unfold Position.to_omega rotFrame
  split
  · rename_i h
    subst h
    simp
  · rfl

theorem rotFrame_rotFrame (a b : ℝ) (v : V3) :
    rotFrame a (rotFrame b v) = rotFrame (a + b) v := by
  unfold rotFrame
  simp only [V3.mk.injEq, Real.cos_add, Real.sin_add]
  refine ⟨by ring, trivial, by ring⟩

theorem rotFrame_zero (v : V3) : rotFrame 0 v = v := by
  unfold rotFrame
  cases v
  simp

/-- C10: Object::new constructs an object in FreeFlight state with an empty
trajectory history, gravitational parameter GM, drag coefficient 0, friction
coefficient 0, no attractor and Coriolis counteraction disabled. -/
theorem object_new_defaults (pos : Position) (vel : Velocity) :
    (Object.new pos vel).state = ObjectState.FreeFlight
    ∧ (Object.new pos vel).path = []
    ∧ (Object.new pos vel).gm = GM
    ∧ (Object.new pos vel).drag_coeff = 0
    ∧ (Object.new pos vel).friction = 0
    ∧ (Object.new pos vel).attractor = none
    ∧ (Object.new pos vel).counteract_coriolis = false := by
  refine ⟨rfl, rfl, rfl, ?_, ?_, rfl, rfl⟩ <;> norm_num [Object.new]

/-- C8: converting a Position to its own angular rate is a no-op returning
the identical value, and likewise for a Velocity with any paired Position. -/
theorem to_omega_identity (p : Position) (v : Velocity) (q : Position) :
    p.to_omega p.omega = p ∧ v.to_omega q v.omega = v := by
  constructor
  · unfold Position.to_omega
    simp
  · unfold Velocity.to_omega
    simp

/-- C5: frame conversion is a group of rotations about the polar axis and is
invertible: converting a Position through any two angular rates and back to
its own rate recovers it exactly. -/
theorem frame_round_trip (p : Position) (w1 w2 : ℝ) :
    ((p.to_omega w1).to_omega w2).to_omega p.omega = p := by
  rw [Position.to_omega_eq, Position.to_omega_eq, Position.to_omega_eq]
  simp only [rotFrame_rotFrame]
  have h : (w2 - p.omega) * p.t + ((w1 - w2) * p.t + (p.omega - w1) * p.t)
      = 0 := by ring
  rw [h, rotFrame_zero]

/-! Preservation lemmas about the pieces of fn step. -/

theorem push_path_sim_state (o : Object) :
    (o.push_path).sim_state = o.sim_state := rfl

theorem push_path_state (o : Object) : (o.push_path).state = o.state := rfl

theorem shift_state (o : Object) (d : Deriv7) (a : ℝ) :
    (o.shift_in_place d a).state = o.state := rfl

theorem shift_path (o : Object) (d : Deriv7) (a : ℝ) :
    (o.shift_in_place d a).path = o.path := rfl

theorem shift_pos_omega (o : Object) (d : Deriv7) (a : ℝ) :
    (o.shift_in_place d a).pos.omega = o.pos.omega := rfl

theorem shift_time (o : Object) (d : Deriv7) (a : ℝ) :
    (o.shift_in_place d a).time = o.time + a * d.dt := rfl

theorem snapCore_state (o : Object) (pos : Position) (r er tr : ℝ) :
    (Object.snapCore o pos r er tr).state
      = ObjectState.ConstantAltitude (tr - er) := by
  simp only [Object.snapCore]
  split <;> rfl

theorem snapCore_path (o : Object) (pos : Position) (r er tr : ℝ) :
    (Object.snapCore o pos r er tr).path = o.path := by
  simp only [Object.snapCore]
  split <;> rfl

theorem snapCore_pos (o : Object) (pos : Position) (r er tr : ℝ) :
    (Object.snapCore o pos r er tr).pos = o.pos.mul (tr / r) := by
  simp only [Object.snapCore]
  split <;> rfl

theorem snapCore_pos_omega (o : Object) (pos : Position) (r er tr : ℝ) :
    (Object.snapCore o pos r er tr).pos.omega = o.pos.omega := by
  rw [snapCore_pos]; rfl

theorem snapCore_time (o : Object) (pos : Position) (r er tr : ℝ) :
    (Object.snapCore o pos r er tr).time = o.time := by
  simp only [Object.snapCore]
  split <;> rfl

theorem surface_check_path (o : Object) : (o.surface_check).path = o.path := by
  unfold Object.surface_check
  cases h : o.state with
  | FreeFlight =>
    simp only [h]
    split
    · rfl
    · exact snapCore_path ..
  | ConstantAltitude alt =>
    simp only [h]
    exact snapCore_path ..

theorem surface_check_pos_omega (o : Object) :
    (o.surface_check).pos.omega = o.pos.omega := by
  unfold Object.surface_check
  cases h : o.state with
  | FreeFlight =>
    simp only [h]
    split
    · rfl
    · exact snapCore_pos_omega ..
  | ConstantAltitude alt =>
    simp only [h]
    exact snapCore_pos_omega ..

theorem surface_check_time (o : Object) : (o.surface_check).time = o.time := by
  unfold Object.surface_check
  cases h : o.state with
  | FreeFlight =>
    simp only [h]
    split
    · rfl
    · exact snapCore_time ..
  | ConstantAltitude alt =>
    simp only [h]
    exact snapCore_time ..

theorem surface_check_const_alt (o : Object) (alt : ℝ)
    (h : o.state = ObjectState.ConstantAltitude alt) :
    (o.surface_check).state = ObjectState.ConstantAltitude alt := by
  unfold Object.surface_check
  simp only [h]
  rw [snapCore_state]
  congr 1
  ring

theorem stepWith_const_alt (f : Object → Deriv7) (o : Object) (alt : ℝ)
    (h : o.state = ObjectState.ConstantAltitude alt) :
    (Object.stepWith f o).state = ObjectState.ConstantAltitude alt := by
  unfold Object.stepWith
  exact surface_check_const_alt _ alt h

/-- C9: a call to step never changes the angular rate tag of the Position:
the integrator shift only adds to the coordinates, velocity and timestamp,
and the surface snap only scales the coordinates, so the position stays in
the same rotating frame. -/
theorem step_preserves_frame (f : Object → Deriv7) (o : Object) :
    (Object.stepWith f o).pos.omega = o.pos.omega := by
  unfold Object.stepWith
  rw [surface_check_pos_omega]
  rfl

/-- C4: an object in ConstantAltitude keeps exactly the same altitude after
any step, and along any sequence of steps (with arbitrary integrators) it
never returns to FreeFlight: ground contact is permanently capturing. -/
theorem const_alt_permanent (o : Object) (alt : ℝ)
    (fs : List (Object → Deriv7))
    (h : o.state = ObjectState.ConstantAltitude alt) :
    (runWith fs o).state = ObjectState.ConstantAltitude alt := by
  induction fs generalizing o with
  | nil => simpa [runWith] using h
  | cons f rest ih =>
    have h1 : runWith (f :: rest) o = runWith rest (Object.stepWith f o) := rfl
    rw [h1]
    exact ih _ (stepWith_const_alt f o alt h)

/-- Witness for C4 at a concrete grounded object and a one step run. -/
theorem const_alt_permanent_witness :
    (wObj.with_const_alt 5).state = ObjectState.ConstantAltitude 5
    ∧ (runWith [fZero] (wObj.with_const_alt 5)).state
        = ObjectState.ConstantAltitude 5 :=
  ⟨rfl, const_alt_permanent (wObj.with_const_alt 5) 5 [fZero] rfl⟩

/-! Lemmas for the bounded history claim. -/

theorem derivative_dt (o : Object) : (o.derivative).dt = 1 := by
  unfold Object.derivative
  cases h : o.state with
  | FreeFlight =>
    simp only [h, Object.derivative_inflight]
    norm_num
  | ConstantAltitude alt =>
    simp only [h, Object.derivative_const_alt]
    norm_num

theorem Deriv7.add_dt (a b : Deriv7) : (a + b).dt = a.dt + b.dt := rfl

theorem Deriv7.smul_dt (c : ℝ) (a : Deriv7) : (c • a).dt = c * a.dt := rfl

theorem rk4Net_dt (dt : ℝ) (o : Object) :
    (rk4Net Object.derivative dt o).dt = dt := by
  unfold rk4Net
  simp only [Deriv7.smul_dt, Deriv7.add_dt, derivative_dt]
  ring

theorem step_time (o : Object) (dt : ℝ) : (o.step dt).time = o.time + dt := by
  unfold Object.step Object.stepWith
  rw [surface_check_time]
  show (o.push_path).time + 1 * (rk4Net Object.derivative dt o.push_path).dt
      = o.time + dt
  rw [rk4Net_dt]
  show o.time + 1 * dt = o.time + dt
  ring

theorem step_path (o : Object) (dt : ℝ) (h : o.path.length ≤ MAX_PATH_LEN) :
    (o.step dt).path
      = (o.path ++ [o.sim_state]).drop (o.path.length + 1 - MAX_PATH_LEN) := by
  unfold Object.step Object.stepWith
  rw [surface_check_path]
  show (o.push_path).path = _
  unfold Object.push_path
  simp only [List.length_append, List.length_singleton]
  split
  · rename_i hlt
    have h1 : o.path.length + 1 - MAX_PATH_LEN = 1 := by omega
    rw [h1, List.drop_one]
  · rename_i hge
    have h1 : o.path.length + 1 - MAX_PATH_LEN = 0 := by omega
    rw [h1, List.drop_zero]

theorem chain_drop {α : Type} {R : α → α → Prop} (n : ℕ) (l : List α)
    (h : l.Chain' R) : (l.drop n).Chain' R := by
  induction n with
  | zero => simpa using h
  | succ k ih =>
    have h1 : l.drop (k + 1) = (l.drop k).tail := by
      rw [← List.drop_drop, List.drop_one]
    rw [h1]
    exact List.Chain'.tail ih

theorem step_invariant (o : Object) (dt : ℝ) (h : pathInvariant o)
    (hdt : 0 < dt) : pathInvariant (o.step dt)
      ∧ (o.step dt).path
          = (o.path ++ [o.sim_state]).drop (o.path.length + 1 - MAX_PATH_LEN) := by
  obtain ⟨hlen, hchain, hlt⟩ := h
  have hpath := step_path o dt hlen
  have htime := step_time o dt
  refine ⟨⟨?_, ?_, ?_⟩, hpath⟩
  · rw [hpath, List.length_drop, List.length_append]
    simp only [List.length_singleton]
    omega
  · rw [hpath, List.map_drop]
    generalize o.path.length + 1 - MAX_PATH_LEN = d
    refine chain_drop d ((o.path ++ [o.sim_state]).map (fun s => s.pos.t)) ?_
    rw [List.map_append]
    rw [List.chain'_append]
    refine ⟨hchain, List.chain'_singleton _, ?_⟩
    intro x hx y hy
    simp only [List.map_cons, List.map_nil, List.head?_cons,
      Option.mem_def, Option.some.injEq] at hy
    subst hy
    obtain ⟨hne, hxe⟩ := List.mem_getLast?_eq_getLast hx
    have hxmem : x ∈ o.path.map (fun s => s.pos.t) := by
      rw [hxe]; exact List.getLast_mem hne
    obtain ⟨s, hs, hst⟩ := List.mem_map.mp hxmem
    rw [← hst]
    exact hlt s hs
  · intro s hs
    rw [hpath] at hs
    have hs2 := List.mem_of_mem_drop hs
    rw [htime]
    rcases List.mem_append.mp hs2 with h1 | h1
    · have := hlt s h1
      linarith
    · simp only [List.mem_singleton] at h1
      subst h1
      show o.time < o.time + dt
      linarith

/-- C6: the trajectory history length never exceeds MAX_PATH_LEN along any
run of steps; on overflow the oldest entry is discarded and the most recent
entries are retained (the history is the suffix of all pushed states that
fits), and the stored entries are strictly chronological by timestamp. -/
theorem bounded_history (o : Object) (dts : List ℝ) (hinv : pathInvariant o)
    (hdts : ∀ dt ∈ dts, 0 < dt) :
    (runSteps dts o).path
        = (o.path ++ stepTrace dts o).drop
            (o.path.length + dts.length - MAX_PATH_LEN)
    ∧ pathInvariant (runSteps dts o) := by
  induction dts generalizing o with
  | nil =>
    refine ⟨?_, hinv⟩
    have h0 : o.path.length + ([] : List ℝ).length - MAX_PATH_LEN = 0 := by
      have := hinv.1
      simp only [List.length_nil]
      omega
    rw [h0]
    simp [runSteps, stepTrace]
  | cons dt rest ih =>
    have hdt : 0 < dt := hdts dt (by simp)
    have hrest : ∀ d ∈ rest, 0 < d := fun d hd => hdts d (by simp [hd])
    obtain ⟨hinv1, hpath1⟩ := step_invariant o dt hinv hdt
    obtain ⟨ihpath, ihinv⟩ := ih (o.step dt) hinv1 hrest
    have hrun : runSteps (dt :: rest) o = runSteps rest (o.step dt) := rfl
    have htrace : stepTrace (dt :: rest) o
        = o.sim_state :: stepTrace rest (o.step dt) := rfl
    refine ⟨?_, by rw [hrun]; exact ihinv⟩
    rw [hrun, htrace, ihpath, hpath1]
    have hd1 : o.path.length + 1 - MAX_PATH_LEN
        ≤ (o.path ++ [o.sim_state]).length := by
      simp only [List.length_append, List.length_singleton]
      omega
    have hlen1 : (List.drop (o.path.length + 1 - MAX_PATH_LEN)
          (o.path ++ [o.sim_state])).length
        = o.path.length + 1 - (o.path.length + 1 - MAX_PATH_LEN) := by
      rw [List.length_drop, List.length_append, List.length_singleton]
    rw [hlen1, ← List.drop_append_of_le_length hd1, List.drop_drop,
      List.append_assoc, List.singleton_append]
    have harith : o.path.length + 1 - MAX_PATH_LEN
          + (o.path.length + 1 - (o.path.length + 1 - MAX_PATH_LEN)
              + rest.length - MAX_PATH_LEN)
        = o.path.length + (dt :: rest).length - MAX_PATH_LEN := by
      have := hinv.1
      simp only [List.length_cons]
      omega
    rw [harith]

/-- Witness for C6 at a fresh object and a single unit time step. -/
theorem bounded_history_witness :
    pathInvariant wObj ∧ (∀ dt ∈ [(1 : ℝ)], 0 < dt)
    ∧ ((runSteps [1] wObj).path
          = (wObj.path ++ stepTrace [1] wObj).drop
              (wObj.path.length + [(1 : ℝ)].length - MAX_PATH_LEN)
        ∧ pathInvariant (runSteps [1] wObj)) := by
  have hinv : pathInvariant wObj := by
    refine ⟨?_, ?_, ?_⟩ <;> simp [wObj, Object.new, pathInvariant, MAX_PATH_LEN]
  have hdts : ∀ dt ∈ [(1 : ℝ)], 0 < dt := by simp
  exact ⟨hinv, hdts, bounded_history wObj [1] hinv hdts⟩

/-! Lemmas for the curvature correction claim. -/

theorem div_self_dot (v : V3) (c : ℝ) :
    (v / c).dot (v / c) = v.dot v / (c * c) := by
  unfold V3.dot
  simp only [V3.div_x, V3.div_y, V3.div_z]
  ring

theorem surface_normal_self_dot (p : V3) (h : p ≠ 0) :
    (surface_normal p).dot (surface_normal p) = 1 := by
  unfold surface_normal
  set v : V3 := ⟨p.x / R_EQU / R_EQU, p.y / R_POL / R_POL, p.z / R_EQU / R_EQU⟩
    with hv
  have hvne : v ≠ 0 := by
    intro h0
    apply h
    have hx := congrArg V3.x h0
    have hy := congrArg V3.y h0
    have hz := congrArg V3.z h0
    rw [hv] at hx hy hz
    simp only [V3.zero_x, V3.zero_y, V3.zero_z] at hx hy hz
    have hpx : p.x = 0 := by
      have hne : R_EQU ≠ 0 := by norm_num [R_EQU]
      field_simp at hx
      exact hx
    have hpy : p.y = 0 := by
      have hne : R_POL ≠ 0 := by norm_num [R_POL]
      field_simp at hy
      exact hy
    have hpz : p.z = 0 := by
      have hne : R_EQU ≠ 0 := by norm_num [R_EQU]
      field_simp at hz
      exact hz
    apply V3.ext <;> simp [hpx, hpy, hpz]
  have hpos : 0 < v.dot v := V3.dot_self_pos v hvne
  show (v / v.norm).dot (v / v.norm) = 1
  rw [div_self_dot, V3.mul_self_norm]
  exact div_self (ne_of_gt hpos)

theorem const_alt_acc_dot (o : Object) (alt : ℝ) (h : o.pos.pos ≠ 0) :
    (o.derivative_const_alt alt).dvel.dot (surface_normal o.pos.pos)
      = -((o.vel.to_omega o.pos o.pos.omega).vel.norm
            * (o.vel.to_omega o.pos o.pos.omega).vel.norm)
          / (r_curv o.pos.pos + alt) := by
  simp only [Object.derivative_const_alt]
  rw [V3.add_dot, V3.smul_dot, surface_normal_self_dot _ h]
  ring

/-- C2 (amended): in ConstantAltitude(alt) the derivative first sums
Coriolis, friction, drag, attraction and the optional Coriolis
counteraction, and then replaces the normal component of that candidate
acceleration so that the dot product of the resulting acceleration with the
local surface normal equals the centripetal value -v*v/(r_curv + alt), v the
objects speed and r_curv the oblate spheroid radius of curvature at the
current position (the altitude is added to the curvature radius). -/
theorem const_alt_curvature_correction (o : Object) (alt : ℝ)
    (h : o.pos.pos ≠ 0) :
    (o.derivative_const_alt alt).dvel.dot (surface_normal o.pos.pos)
      = -((o.vel.to_omega o.pos o.pos.omega).vel.norm
            * (o.vel.to_omega o.pos o.pos.omega).vel.norm)
          / (r_curv o.pos.pos + alt) :=
  const_alt_acc_dot o alt h

/-- Witness for the amended curvature correction claim at a concrete
object. -/
theorem const_alt_curvature_correction_witness :
    wObj.pos.pos ≠ 0
    ∧ (wObj.derivative_const_alt 0).dvel.dot (surface_normal wObj.pos.pos)
        = -((wObj.vel.to_omega wObj.pos wObj.pos.omega).vel.norm
              * (wObj.vel.to_omega wObj.pos wObj.pos.omega).vel.norm)
            / (r_curv wObj.pos.pos + 0) := by
  have h : wObj.pos.pos ≠ 0 := by
    intro h0
    have hy := congrArg V3.y h0
    norm_num [wObj, Object.new, wPosPolar, Object.pos] at hy
  exact ⟨h, const_alt_curvature_correction wObj 0 h⟩

/-- Counterexample to C2 as stated: at altitude 1, the normal component of
the corrected acceleration is not -v*v/r_curv, because the code divides by
r_curv plus the altitude. -/
theorem const_alt_curvature_claim_counterexample :
    ¬ ((cexObjC2.derivative_const_alt 1).dvel.dot
          (surface_normal cexObjC2.pos.pos)
        = -((cexObjC2.vel.to_omega cexObjC2.pos cexObjC2.pos.omega).vel.norm
              * (cexObjC2.vel.to_omega cexObjC2.pos
                  cexObjC2.pos.omega).vel.norm)
            / r_curv cexObjC2.pos.pos) := by
  intro hEq
  have hbig : (0 : ℝ) < R_EQU * R_EQU + R_POL * R_POL - 1 := by
    norm_num [R_EQU, R_POL]
  have hy0 : (0 : ℝ) < Real.sqrt (R_EQU * R_EQU + R_POL * R_POL - 1) :=
    Real.sqrt_pos.mpr hbig
  have hposval : cexObjC2.pos.pos
      = ⟨0, Real.sqrt (R_EQU * R_EQU + R_POL * R_POL - 1), 0⟩ := rfl
  have hpos : cexObjC2.pos.pos ≠ 0 := by
    rw [hposval]
    intro h0
    have hy := congrArg V3.y h0
    simp only [V3.zero_y] at hy
    exact absurd hy (ne_of_gt hy0)
  have hdot := const_alt_acc_dot cexObjC2 1 hpos
  rw [hdot] at hEq
  have hvel : (cexObjC2.vel.to_omega cexObjC2.pos cexObjC2.pos.omega).vel
      = ⟨1, 0, 0⟩ := by
    have homega : cexObjC2.vel.omega = cexObjC2.pos.omega := rfl
    rw [Velocity.to_omega, if_pos homega]
    rfl
  have hnorm : ((⟨1, 0, 0⟩ : V3) : V3).norm = 1 := by
    unfold V3.norm V3.dot
    norm_num
  have hrc : r_curv cexObjC2.pos.pos = 1 / (R_EQU * R_POL) := by
    rw [hposval]
    simp only [r_curv, V3.dot]
    have hdot2 : (0 : ℝ) * 0
        + Real.sqrt (R_EQU * R_EQU + R_POL * R_POL - 1)
          * Real.sqrt (R_EQU * R_EQU + R_POL * R_POL - 1) + 0 * 0
        = R_EQU * R_EQU + R_POL * R_POL - 1 := by
      rw [Real.mul_self_sqrt (le_of_lt hbig)]
      ring
    rw [hdot2]
    have harg : R_EQU * R_EQU + R_POL * R_POL
        - (R_EQU * R_EQU + R_POL * R_POL - 1) = 1 := by ring
    rw [harg, Real.sqrt_one]
    ring
  rw [hvel, hnorm, hrc] at hEq
  norm_num [R_EQU, R_POL] at hEq

/-- C7: every UI numeric field that fails to parse is replaced by the defined
default (0 for every real valued field and for the particle count), so
construction of the objects from a description is the same as construction
from the description with every failed parse replaced by its default; parsing
failures are absorbed at the boundary and the construction is total. -/
theorem parse_fallback_defaults (d : ObjectDescription) :
    d.into_objects = (normalizeDesc d).into_objects := by
  rcases d with ⟨lat, lon, elev, color, kind⟩
  cases kind <;>
    simp [ObjectDescription.into_objects, normalizeDesc, normalizeKind,
      ObjectDescription.lat_f, ObjectDescription.lon_f,
      ObjectDescription.elev_f]

/-! Lemmas for the surface snap claim. -/

theorem V3.norm_zero : (0 : V3).norm = 0 := by
  unfold V3.norm V3.dot
  simp

theorem V3.ne_zero_of_norm_pos (v : V3) (h : 0 < v.norm) : v ≠ 0 := by
  intro h0
  rw [h0, V3.norm_zero] at h
  exact lt_irrefl 0 h

theorem postIntegration_state (f : Object → Deriv7) (o : Object) :
    (Object.postIntegration f o).state = o.state := rfl

theorem stepWith_eq_snapCore (f : Object → Deriv7) (o : Object)
    (hstate : o.state = ObjectState.FreeFlight)
    (hlt : checkR f o < checkEarthR f o) :
    Object.stepWith f o
      = Object.snapCore (Object.postIntegration f o) (checkPos f o)
          (checkR f o) (checkEarthR f o) (checkEarthR f o) := by
  have hPstate : (Object.postIntegration f o).state
      = ObjectState.FreeFlight := hstate
  unfold Object.stepWith Object.surface_check
  simp only [hPstate]
  rw [if_pos (show ((Object.postIntegration f o).pos.to_omega OMEGA).pos.norm
    < earth_radius (Real.arcsin
        (((Object.postIntegration f o).pos.to_omega OMEGA).pos.y
          / ((Object.postIntegration f o).pos.to_omega OMEGA).pos.norm))
    from hlt)]
  rfl

theorem cancelVel_nonneg (v : Velocity) (normal : V3)
    (h : normal.dot normal = 1) :
    0 ≤ (cancelVel v normal).vel.dot normal := by
  simp only [cancelVel]
  split
  · rename_i hneg
    show (v.vel + (-(v.vel.dot normal)) • normal).dot normal ≥ 0
    rw [V3.add_dot, V3.smul_dot, h]
    ring_nf
    exact le_refl 0
  · rename_i hge
    exact le_of_not_lt hge

/-- C1: when, after a step, the radial distance of the position converted to
the planet frame has dropped below the local surface radius while in free
flight, the step runs the snap transition: the step result is snapCore at
the checked radius and surface radius, the state becomes
ConstantAltitude(target_r - earth_r) = ConstantAltitude(0), the position
vector is multiplied by target_r over r, the magnitude of the inertial frame
velocity is multiplied by r over target_r, and after the cancellation of any
negative normal component the resulting normal velocity component is
nonnegative. -/
theorem free_flight_surface_snap (f : Object → Deriv7) (o : Object)
    (hstate : o.state = ObjectState.FreeFlight)
    (hr : 0 < checkR f o)
    (hlt : checkR f o < checkEarthR f o) :
    Object.stepWith f o
        = Object.snapCore (Object.postIntegration f o) (checkPos f o)
            (checkR f o) (checkEarthR f o) (checkEarthR f o)
    ∧ (Object.stepWith f o).state = ObjectState.ConstantAltitude 0
    ∧ (Object.stepWith f o).pos.pos
        = (checkEarthR f o / checkR f o) • (Object.postIntegration f o).pos.pos
    ∧ ((snapVel0 f o).mul (checkR f o / checkEarthR f o)).vel.norm
        = (checkR f o / checkEarthR f o) * (snapVel0 f o).vel.norm
    ∧ 0 ≤ (cancelVel (Object.snapVel2 (Object.postIntegration f o)
              (checkPos f o) (checkR f o) (checkEarthR f o))
            (surface_normal (checkPos f o).pos)).vel.dot
          (surface_normal (checkPos f o).pos) := by
  have hstep := stepWith_eq_snapCore f o hstate hlt
  have her : 0 < checkEarthR f o := lt_trans hr hlt
  refine ⟨hstep, ?_, ?_, ?_, ?_⟩
  · rw [hstep, snapCore_state, sub_self]
  · rw [hstep, snapCore_pos]
    rfl
  · have hmul : ((snapVel0 f o).mul (checkR f o / checkEarthR f o)).vel
        = (checkR f o / checkEarthR f o) • (snapVel0 f o).vel := rfl
    rw [hmul, V3.norm_smul, abs_of_nonneg (div_nonneg hr.le her.le)]
  · apply cancelVel_nonneg
    apply surface_normal_self_dot
    exact V3.ne_zero_of_norm_pos _ hr

/-! Computation of the trigger quantities at the witness object. -/

theorem wobj_postIntegration_pos :
    (Object.postIntegration fZero wObj).pos = wPosPolar := by
  have h0 : (Object.postIntegration fZero wObj).pos
      = (wPosPolar.increase ((1 : ℝ) • (⟨0, 0, 0⟩ : V3))).increase_time
          (1 * 0) := rfl
  rw [h0]
  unfold wPosPolar Position.increase Position.increase_time
  simp only [Position.mk.injEq, V3.ext_iff, V3.add_x, V3.add_y, V3.add_z,
    V3.smul_x, V3.smul_y, V3.smul_z]
  norm_num

theorem wobj_checkPos : checkPos fZero wObj = wPosPolar := by
  unfold checkPos
  rw [wobj_postIntegration_pos]
  unfold Position.to_omega
  rw [if_pos (show wPosPolar.omega = OMEGA from rfl)]

theorem wobj_checkR : checkR fZero wObj = 1 := by
  unfold checkR
  rw [wobj_checkPos]
  show V3.norm ⟨0, 1, 0⟩ = 1
  unfold V3.norm V3.dot
  norm_num

theorem wobj_checkEarthR : checkEarthR fZero wObj = R_POL := by
  unfold checkEarthR checkR
  rw [wobj_checkPos]
  have hn : wPosPolar.pos.norm = 1 := by
    show V3.norm ⟨0, 1, 0⟩ = 1
    unfold V3.norm V3.dot
    norm_num
  have hy : wPosPolar.pos.y = 1 := rfl
  rw [hn, hy]
  have h11 : (1 : ℝ) / 1 = 1 := by norm_num
  rw [h11, Real.arcsin_one]
  simp only [earth_radius]
  rw [Real.cos_pi_div_two, Real.sin_pi_div_two]
  have hsq : (0 : ℝ) / R_EQU * (0 / R_EQU) + 1 / R_POL * (1 / R_POL)
      = (1 / R_POL) * (1 / R_POL) := by ring
  rw [hsq, Real.sqrt_mul_self (by norm_num [R_POL] : (0 : ℝ) ≤ 1 / R_POL)]
  rw [one_div_one_div]

/-! Lemmas about atan2 and the spherical reconstruction, for the cyclone
claim. -/

theorem Position.to_omega_of_eq (p : Position) (w : ℝ) (h : p.omega = w) :
    p.to_omega w = p := by
  unfold Position.to_omega
  rw [if_pos h]

theorem Velocity.to_omega_rate_noop (v : Velocity) (q : Position) (w : ℝ)
    (h : v.omega = w) : v.to_omega q w = v := by
  unfold Velocity.to_omega
  rw [if_pos h]

theorem to_radians_to_degrees (x : ℝ) : to_radians (to_degrees x) = x := by
  unfold to_radians to_degrees
  field_simp

theorem atan2_cos_mul (y x : ℝ) :
    Real.cos (atan2 y x) * Real.sqrt (x * x + y * y) = x := by
  unfold atan2
  by_cases h : (⟨x, y⟩ : ℂ) = 0
  · rw [Complex.ext_iff] at h
    simp only [Complex.zero_re, Complex.zero_im] at h
    obtain ⟨hx, hy⟩ := h
    rw [hx, hy]
    simp
  · rw [Complex.cos_arg h]
    have habs : Complex.abs ⟨x, y⟩ = Real.sqrt (x * x + y * y) := by
      rw [Complex.abs_apply, Complex.normSq_mk]
    have hne : Real.sqrt (x * x + y * y) ≠ 0 := by
      rw [← habs]
      exact Complex.abs.ne_zero h
    rw [habs]
    rw [show (⟨x, y⟩ : ℂ).re = x from rfl]
    rw [div_mul_cancel₀ x hne]

theorem atan2_sin_mul (y x : ℝ) :
    Real.sin (atan2 y x) * Real.sqrt (x * x + y * y) = y := by
  unfold atan2
  by_cases h : (⟨x, y⟩ : ℂ) = 0
  · rw [Complex.ext_iff] at h
    simp only [Complex.zero_re, Complex.zero_im] at h
    obtain ⟨hx, hy⟩ := h
    rw [hx, hy]
    simp
  · rw [Complex.sin_arg]
    have habs : Complex.abs ⟨x, y⟩ = Real.sqrt (x * x + y * y) := by
      rw [Complex.abs_apply, Complex.normSq_mk]
    have hne : Real.sqrt (x * x + y * y) ≠ 0 := by
      rw [← habs]
      exact Complex.abs.ne_zero h
    rw [habs]
    rw [show (⟨x, y⟩ : ℂ).im = y from rfl]
    rw [div_mul_cancel₀ y hne]

theorem xz_east_orthogonal (x z : ℝ) :
    x * Real.cos (atan2 x z) - z * Real.sin (atan2 x z) = 0 := by
  have hc := atan2_cos_mul x z
  have hs := atan2_sin_mul x z
  by_cases h : Real.sqrt (z * z + x * x) = 0
  · rw [h, mul_zero] at hc hs
    rw [← hc, ← hs]
    ring
  · have hmul : (x * Real.cos (atan2 x z) - z * Real.sin (atan2 x z))
        * Real.sqrt (z * z + x * x) = 0 := by
      linear_combination x * hc - z * hs
    rcases mul_eq_zero.mp hmul with h1 | h2
    · exact h1
    · exact absurd h2 h

theorem V3.neg_dot (a b : V3) : (-a).dot b = -(a.dot b) := by
  unfold dot
  simp only [neg_x, neg_y, neg_z]
  ring

theorem V3.div_dot (a : V3) (c : ℝ) (b : V3) :
    (a / c).dot b = a.dot b / c := by
  unfold dot
  simp only [div_x, div_y, div_z]
  ring

theorem V3.dot_linear_comb (E N U : V3) (e n u : ℝ) :
    (e • E + n • N + u • U).dot (e • E + n • N + u • U)
      = e * e * E.dot E + n * n * N.dot N + u * u * U.dot U
        + 2 * (e * n) * E.dot N + 2 * (e * u) * E.dot U
        + 2 * (n * u) * N.dot U := by
  unfold dot
  simp only [add_x, add_y, add_z, smul_x, smul_y, smul_z]
  ring

theorem V3.comb_dot (E N U b : V3) (e n u : ℝ) :
    (e • E + n • N + u • U).dot b
      = e * E.dot b + n * N.dot b + u * U.dot b := by
  unfold dot
  simp only [add_x, add_y, add_z, smul_x, smul_y, smul_z]
  ring

theorem unitSphereDir_reconstruct (w : V3) (h : w.dot w = 1) :
    unitSphereDir (Real.arcsin w.z) (atan2 w.y w.x) = w := by
  have hxx := mul_self_nonneg w.x
  have hyy := mul_self_nonneg w.y
  have hd : w.x * w.x + w.y * w.y + w.z * w.z = 1 := h
  have hz1 : -1 ≤ w.z := by nlinarith
  have hz1b : w.z ≤ 1 := by nlinarith
  have hcos : Real.cos (Real.arcsin w.z)
      = Real.sqrt (w.x * w.x + w.y * w.y) := by
    rw [Real.cos_arcsin]
    congr 1
    linear_combination -hd
  unfold unitSphereDir
  rw [hcos, Real.sin_arcsin hz1 hz1b]
  apply V3.ext
  · show Real.sqrt (w.x * w.x + w.y * w.y) * Real.cos (atan2 w.y w.x) = w.x
    rw [mul_comm]
    exact atan2_cos_mul w.y w.x
  · show Real.sqrt (w.x * w.x + w.y * w.y) * Real.sin (atan2 w.y w.x) = w.y
    rw [mul_comm]
    exact atan2_sin_mul w.y w.x
  · rfl

theorem gcFpos_equator (dir dist : ℝ) :
    gcFpos 0 0 dir dist
      = ⟨Real.cos (dist / 6371e3),
         Real.sin (dist / 6371e3) * Real.sin (to_radians dir),
         Real.sin (dist / 6371e3) * Real.cos (to_radians dir)⟩ := by
  unfold gcFpos
  have h0 : to_radians 0 = 0 := by
    unfold to_radians
    ring
  rw [h0]
  simp only [Real.sin_zero, Real.cos_zero, V3.cross]
  apply V3.ext
  · show Real.cos (dist / 6371e3) * (1 * 1)
        + Real.sin (dist / 6371e3)
          * (Real.cos (to_radians dir) * (1 * 0 * 0 - 0 * 1)
            + Real.sin (to_radians dir) * -0) = _
    ring
  · show Real.cos (dist / 6371e3) * (1 * 0)
        + Real.sin (dist / 6371e3)
          * (Real.cos (to_radians dir) * (0 * -0 - 1 * 1 * 0)
            + Real.sin (to_radians dir) * 1) = _
    ring
  · show Real.cos (dist / 6371e3) * 0
        + Real.sin (dist / 6371e3)
          * (Real.cos (to_radians dir) * (1 * 1 * 1 - 1 * 0 * -0)
            + Real.sin (to_radians dir) * 0) = _
    ring

theorem gcFpos_unit (dir dist : ℝ) :
    (gcFpos 0 0 dir dist).dot (gcFpos 0 0 dir dist) = 1 := by
  rw [gcFpos_equator]
  unfold V3.dot
  have h1 := Real.sin_sq_add_cos_sq (dist / 6371e3)
  have h2 := Real.sin_sq_add_cos_sq (to_radians dir)
  dsimp only
  linear_combination h1 + Real.sin (dist / 6371e3) ^ 2 * h2

theorem get_coords_eq (lat lon dir dist : ℝ) :
    get_coords_at_dist lat lon dir dist
      = (to_degrees (Real.arcsin ((gcFpos lat lon dir dist
            / (gcFpos lat lon dir dist).norm).z)),
         to_degrees (atan2 ((gcFpos lat lon dir dist
            / (gcFpos lat lon dir dist).norm).y)
           ((gcFpos lat lon dir dist / (gcFpos lat lon dir dist).norm).x))) :=
  rfl

theorem get_coords_unit_dist (dir dist : ℝ) :
    (unitSphereDir (to_radians (get_coords_at_dist 0 0 dir dist).1)
        (to_radians (get_coords_at_dist 0 0 dir dist).2)).dot
      (unitSphereDir 0 0) = Real.cos (dist / 6371e3) := by
  have hunit := gcFpos_unit dir dist
  have hnorm : (gcFpos 0 0 dir dist).norm = 1 := by
    unfold V3.norm
    rw [hunit, Real.sqrt_one]
  have hdiv : gcFpos 0 0 dir dist / (gcFpos 0 0 dir dist).norm
      = gcFpos 0 0 dir dist := by
    rw [hnorm]
    apply V3.ext <;> simp
  rw [get_coords_eq]
  simp only
  rw [hdiv, to_radians_to_degrees, to_radians_to_degrees]
  rw [unitSphereDir_reconstruct _ hunit]
  have hu00 : unitSphereDir 0 0 = ⟨1, 0, 0⟩ := by
    unfold unitSphereDir
    simp
  rw [hu00, gcFpos_equator]
  unfold V3.dot
  dsimp only
  ring

/-! Lemmas about the east-north-up basis. -/

theorem enuEast_self_dot (pos : Position) :
    (enuEast pos).dot (enuEast pos) = 1 := by
  unfold enuEast
  set lon := atan2 (pos.to_omega OMEGA).pos.x (pos.to_omega OMEGA).pos.z
  unfold V3.dot
  dsimp only
  linear_combination Real.sin_sq_add_cos_sq lon

theorem effGrav_dot_enuEast (pos : Position) :
    (effGrav pos).dot (enuEast pos) = 0 := by
  unfold effGrav enuEast
  simp only [Position.grav, Position.centrifugal]
  rw [V3.add_dot, V3.smul_dot, V3.smul_dot]
  set q := pos.to_omega OMEGA
  set lon := atan2 q.pos.x q.pos.z
  have h1 : q.pos.dot ⟨Real.cos lon, 0, -Real.sin lon⟩
      = q.pos.x * Real.cos lon - q.pos.z * Real.sin lon := by
    unfold V3.dot
    dsimp only
    ring
  have h2 : (⟨q.pos.x, 0, q.pos.z⟩ : V3).dot ⟨Real.cos lon, 0, -Real.sin lon⟩
      = q.pos.x * Real.cos lon - q.pos.z * Real.sin lon := by
    unfold V3.dot
    dsimp only
    ring
  rw [h1, h2, xz_east_orthogonal q.pos.x q.pos.z]
  ring

theorem enuUp_dot_enuEast (pos : Position) :
    (enuUp pos).dot (enuEast pos) = 0 := by
  unfold enuUp
  rw [V3.div_dot, V3.neg_dot, effGrav_dot_enuEast]
  simp

theorem enuUp_self_dot (pos : Position) (hg : effGrav pos ≠ 0) :
    (enuUp pos).dot (enuUp pos) = 1 := by
  unfold enuUp
  rw [div_self_dot]
  have hnn : (-effGrav pos).dot (-effGrav pos)
      = (effGrav pos).dot (effGrav pos) := by
    unfold V3.dot
    simp only [V3.neg_x, V3.neg_y, V3.neg_z]
    ring
  rw [hnn, V3.mul_self_norm]
  exact div_self (ne_of_gt (V3.dot_self_pos _ hg))

theorem from_enu_vel (pos : Position) (e n u : ℝ) (hw : pos.omega = OMEGA) :
    (Velocity.from_east_north_up pos e n u).vel
      = e • enuEast pos + n • (enuUp pos).cross (enuEast pos)
        + u • enuUp pos := by
  unfold Velocity.from_east_north_up
  rw [Position.to_omega_of_eq pos OMEGA hw]
  rw [Velocity.to_omega_rate_noop _ _ _ (show (OMEGA : ℝ) = pos.omega from hw.symm)]

theorem from_enu_norm (pos : Position) (e n : ℝ) (hw : pos.omega = OMEGA)
    (hg : effGrav pos ≠ 0) :
    (Velocity.from_east_north_up pos e n 0).vel.norm
      = Real.sqrt (e * e + n * n) := by
  rw [from_enu_vel pos e n 0 hw]
  unfold V3.norm
  congr 1
  rw [V3.dot_linear_comb]
  have hEE := enuEast_self_dot pos
  have hUE := enuUp_dot_enuEast pos
  have hUU := enuUp_self_dot pos hg
  have hNN : ((enuUp pos).cross (enuEast pos)).dot
      ((enuUp pos).cross (enuEast pos)) = 1 := by
    rw [V3.cross_dot_self, hUU, hEE, hUE]
    ring
  have hEN : (enuEast pos).dot ((enuUp pos).cross (enuEast pos)) = 0 := by
    rw [V3.dot_comm]
    exact V3.cross_dot_right (enuUp pos) (enuEast pos)
  have hEU : (enuEast pos).dot (enuUp pos) = 0 := by
    rw [V3.dot_comm]
    exact hUE
  have hNU : ((enuUp pos).cross (enuEast pos)).dot (enuUp pos) = 0 :=
    V3.cross_dot_left (enuUp pos) (enuEast pos)
  rw [hEE, hNN, hUU, hEN, hEU, hNU]
  ring

theorem from_enu_tangential (pos : Position) (e n : ℝ)
    (hw : pos.omega = OMEGA) :
    (Velocity.from_east_north_up pos e n 0).vel.dot (enuUp pos) = 0 := by
  rw [from_enu_vel pos e n 0 hw, V3.comb_dot]
  have hUE := enuUp_dot_enuEast pos
  have hEU : (enuEast pos).dot (enuUp pos) = 0 := by
    rw [V3.dot_comm]
    exact hUE
  have hNU : ((enuUp pos).cross (enuEast pos)).dot (enuUp pos) = 0 :=
    V3.cross_dot_left (enuUp pos) (enuEast pos)
  rw [hEU, hNU]
  ring

/-! Bounds for the surface positions and nonvanishing of effective gravity. -/

theorem surface_dot_bounds (lat lon : ℝ) :
    R_POL * R_POL
        ≤ (lat_lon_elev_to_vec3 lat lon 0).dot (lat_lon_elev_to_vec3 lat lon 0)
    ∧ (lat_lon_elev_to_vec3 lat lon 0).dot (lat_lon_elev_to_vec3 lat lon 0)
        ≤ R_EQU * R_EQU := by
  unfold lat_lon_elev_to_vec3
  have hdot : (⟨pr (to_radians lat) 0 * Real.sin (to_radians lon),
        pz (to_radians lat) 0,
        pr (to_radians lat) 0 * Real.cos (to_radians lon)⟩ : V3).dot
      (⟨pr (to_radians lat) 0 * Real.sin (to_radians lon),
        pz (to_radians lat) 0,
        pr (to_radians lat) 0 * Real.cos (to_radians lon)⟩ : V3)
      = pr (to_radians lat) 0 * pr (to_radians lat) 0
        + pz (to_radians lat) 0 * pz (to_radians lat) 0 := by
    unfold V3.dot
    dsimp only
    linear_combination (pr (to_radians lat) 0 * pr (to_radians lat) 0)
      * Real.sin_sq_add_cos_sq (to_radians lon)
  rw [hdot]
  unfold pr pz nphi
  set s := Real.sin (to_radians lat) with hsdef
  set c := Real.cos (to_radians lat) with hcdef
  set q := 1 - ECC2 * s * s with hqdef
  set S := Real.sqrt q with hSdef
  have hE1 : 0 < ECC2 := by norm_num [ECC2, R_EQU, R_POL]
  have hE2 : ECC2 < 1 := by norm_num [ECC2, R_EQU, R_POL]
  have hsc := Real.sin_sq_add_cos_sq (to_radians lat)
  have hs0 : 0 ≤ s * s := mul_self_nonneg s
  have hs2 : s * s ≤ 1 := by nlinarith [mul_self_nonneg c]
  have hc2 : c * c = 1 - s * s := by nlinarith
  have hq0 : 0 < q := by
    rw [hqdef]
    nlinarith
  have hSS : S * S = q := Real.mul_self_sqrt hq0.le
  have hS0 : 0 < S := Real.sqrt_pos.mpr hq0
  have hXY : (R_EQU / S + 0) * c * ((R_EQU / S + 0) * c)
      + (R_EQU / S * (1 - ECC2) + 0) * s * ((R_EQU / S * (1 - ECC2) + 0) * s)
      = R_EQU * R_EQU * (c * c + (1 - ECC2) * (1 - ECC2) * (s * s)) / q := by
    rw [← hSS]
    field_simp
    ring
  rw [hXY]
  have hPol : R_POL * R_POL = R_EQU * R_EQU * (1 - ECC2) := by
    norm_num [ECC2, R_EQU, R_POL]
  have hRe0 : (0 : ℝ) < R_EQU * R_EQU := by norm_num [R_EQU]
  constructor
  · rw [le_div_iff₀ hq0, hPol, hqdef, hc2]
    nlinarith [mul_nonneg (mul_nonneg hRe0.le hE1.le) (sub_nonneg.mpr hs2)]
  · rw [div_le_iff₀ hq0, hqdef, hc2]
    nlinarith [mul_nonneg (mul_nonneg (mul_nonneg hRe0.le hE1.le) hs0)
      (sub_nonneg.mpr hE2.le)]

theorem effGrav_surface_ne_zero (lat lon : ℝ) :
    effGrav (Position.from_lat_lon_elev lat lon 0) ≠ 0 := by
  obtain ⟨hlow, hhigh⟩ := surface_dot_bounds lat lon
  set vec := lat_lon_elev_to_vec3 lat lon 0 with hvecdef
  have hD0 : 0 < vec.dot vec := by
    have : (0 : ℝ) < R_POL * R_POL := by norm_num [R_POL]
    linarith
  set r := vec.norm with hrdef
  have hrr : r * r = vec.dot vec := V3.mul_self_norm vec
  have hr0 : 0 < r := Real.sqrt_pos.mpr hD0
  have hRe : (0 : ℝ) < R_EQU := by norm_num [R_EQU]
  have hrle : r ≤ R_EQU := by nlinarith
  intro hg0
  have hexpand : (effGrav (Position.from_lat_lon_elev lat lon 0)).dot vec
      = (-GM / r / r / r) * (vec.dot vec)
        + OMEGA * OMEGA * (vec.x * vec.x + vec.z * vec.z) := by
    unfold effGrav
    rw [Position.to_omega_of_eq _ _
      (show (Position.from_lat_lon_elev lat lon 0).omega = OMEGA from rfl)]
    simp only [Position.grav, Position.centrifugal]
    rw [V3.add_dot, V3.smul_dot, V3.smul_dot]
    have h2 : (⟨(Position.from_lat_lon_elev lat lon 0).pos.x, 0,
          (Position.from_lat_lon_elev lat lon 0).pos.z⟩ : V3).dot vec
        = vec.x * vec.x + vec.z * vec.z := by
      unfold V3.dot
      dsimp only
      show vec.x * vec.x + 0 * vec.y + vec.z * vec.z = _
      ring
    rw [h2]
    rfl
  have hxz : vec.x * vec.x + vec.z * vec.z ≤ vec.dot vec := by
    unfold V3.dot
    nlinarith [mul_self_nonneg vec.y]
  have hnum : OMEGA * OMEGA * (R_EQU * R_EQU * R_EQU) < GM := by
    norm_num [OMEGA, GM, R_EQU]
  have hr3 : r * r * r ≤ R_EQU * R_EQU * R_EQU := by nlinarith
  have hxz0 : 0 ≤ vec.x * vec.x + vec.z * vec.z := by
    nlinarith [mul_self_nonneg vec.x, mul_self_nonneg vec.z]
  have hkey : OMEGA * OMEGA * (vec.x * vec.x + vec.z * vec.z) * (r * r * r)
      < GM * (vec.dot vec) := by
    have hO0 : (0 : ℝ) < OMEGA * OMEGA := by norm_num [OMEGA]
    have hr30 : 0 ≤ r * r * r := by positivity
    have hmm : (vec.x * vec.x + vec.z * vec.z) * (r * r * r)
        ≤ vec.dot vec * (R_EQU * R_EQU * R_EQU) :=
      mul_le_mul hxz hr3 hr30 hD0.le
    have step1 := mul_le_mul_of_nonneg_left hmm hO0.le
    have step2 : OMEGA * OMEGA * (vec.dot vec) * (R_EQU * R_EQU * R_EQU)
        < GM * (vec.dot vec) := by
      nlinarith [mul_pos (sub_pos.mpr hnum) hD0]
    nlinarith [step1, step2]
  have hlt : (-GM / r / r / r) * (vec.dot vec)
      + OMEGA * OMEGA * (vec.x * vec.x + vec.z * vec.z) < 0 := by
    have hA : (-GM / r / r / r) * (vec.dot vec)
        = -(GM * (vec.dot vec)) / (r * r * r) := by
      field_simp
    rw [hA]
    have hB : OMEGA * OMEGA * (vec.x * vec.x + vec.z * vec.z)
        < GM * (vec.dot vec) / (r * r * r) := by
      rw [lt_div_iff₀ (by positivity : (0 : ℝ) < r * r * r)]
      exact hkey
    have hC : -(GM * (vec.dot vec)) / (r * r * r)
        = -(GM * (vec.dot vec) / (r * r * r)) := by ring
    rw [hC]
    linarith
  rw [hg0] at hexpand
  have hz : (0 : V3).dot vec = 0 := by
    unfold V3.dot
    simp only [V3.zero_x, V3.zero_y, V3.zero_z]
    ring
  rw [hz] at hexpand
  linarith [hlt, hexpand.symm.le, hexpand.ge]

/-- C3: cyclone with 8 objects at lat 0, lon 0, elev 0, circle radius R and
speed V produces exactly 8 objects; object i is placed at the coordinates
reached at azimuth 45 degrees times i, which lie at great circle distance R
from the center on the reference sphere of radius 6371 km (the dot product
of the unit directions equals cos(R / 6371e3)); each velocity has magnitude
the absolute value of V and is tangential (orthogonal to the local up
direction). -/
theorem cyclone_spec (R ac V : ℝ) (c : ℝ × ℝ × ℝ) :
    (cyclone 0 0 0 R ac V 0 8 c).length = 8
    ∧ ∀ i : Fin (cyclone 0 0 0 R ac V 0 8 c).length,
      ((cyclone 0 0 0 R ac V 0 8 c).get i).pos
          = Position.from_lat_lon_elev
              (get_coords_at_dist 0 0 (45 * ((i : ℕ) : ℝ)) R).1
              (get_coords_at_dist 0 0 (45 * ((i : ℕ) : ℝ)) R).2 0
      ∧ (unitSphereDir
            (to_radians (get_coords_at_dist 0 0 (45 * ((i : ℕ) : ℝ)) R).1)
            (to_radians
              (get_coords_at_dist 0 0 (45 * ((i : ℕ) : ℝ)) R).2)).dot
          (unitSphereDir 0 0) = Real.cos (R / 6371e3)
      ∧ ((cyclone 0 0 0 R ac V 0 8 c).get i).vel.vel.norm = |V|
      ∧ ((cyclone 0 0 0 R ac V 0 8 c).get i).vel.vel.dot
          (enuUp ((cyclone 0 0 0 R ac V 0 8 c).get i).pos) = 0 := by
  have hlen : (cyclone 0 0 0 R ac V 0 8 c).length = 8 := by
    unfold cyclone
    rw [List.length_map, List.length_range]
  refine ⟨hlen, ?_⟩
  intro i
  obtain ⟨i, hi⟩ := i
  have hazim : to_degrees (2 * Real.pi / ((8 : ℕ) : ℝ) * (i : ℝ))
      = 45 * (i : ℝ) := by
    unfold to_degrees
    have h8 : ((8 : ℕ) : ℝ) = 8 := by norm_num
    rw [h8]
    field_simp
    ring
  have hpos : ((cyclone 0 0 0 R ac V 0 8 c).get ⟨i, hi⟩).pos
      = Position.from_lat_lon_elev
          (get_coords_at_dist 0 0
            (to_degrees (2 * Real.pi / ((8 : ℕ) : ℝ) * (i : ℝ))) R).1
          (get_coords_at_dist 0 0
            (to_degrees (2 * Real.pi / ((8 : ℕ) : ℝ) * (i : ℝ))) R).2 0 := by
    unfold cyclone
    simp only [List.get_eq_getElem, List.getElem_map, List.getElem_range]
    rfl
  have hvel : ((cyclone 0 0 0 R ac V 0 8 c).get ⟨i, hi⟩).vel
      = Velocity.from_east_north_up
          (Position.from_lat_lon_elev
            (get_coords_at_dist 0 0
              (to_degrees (2 * Real.pi / ((8 : ℕ) : ℝ) * (i : ℝ))) R).1
            (get_coords_at_dist 0 0
              (to_degrees (2 * Real.pi / ((8 : ℕ) : ℝ) * (i : ℝ))) R).2 0)
          (-V * Real.sin (2 * Real.pi / ((8 : ℕ) : ℝ) * (i : ℝ)))
          (-V * Real.cos (2 * Real.pi / ((8 : ℕ) : ℝ) * (i : ℝ))) 0 := by
    unfold cyclone
    simp only [List.get_eq_getElem, List.getElem_map, List.getElem_range]
    rfl
  rw [hazim] at hpos hvel
  refine ⟨hpos, get_coords_unit_dist (45 * (i : ℝ)) R, ?_, ?_⟩
  · rw [hvel, from_enu_norm _ _ _ rfl (effGrav_surface_ne_zero _ _)]
    have hvv : -V * Real.sin (2 * Real.pi / ((8 : ℕ) : ℝ) * (i : ℝ))
          * (-V * Real.sin (2 * Real.pi / ((8 : ℕ) : ℝ) * (i : ℝ)))
        + -V * Real.cos (2 * Real.pi / ((8 : ℕ) : ℝ) * (i : ℝ))
          * (-V * Real.cos (2 * Real.pi / ((8 : ℕ) : ℝ) * (i : ℝ)))
        = V * V := by
      linear_combination (V * V)
        * Real.sin_sq_add_cos_sq (2 * Real.pi / ((8 : ℕ) : ℝ) * (i : ℝ))
    rw [hvv, Real.sqrt_mul_self_eq_abs]
  · rw [hvel, hpos]
    exact from_enu_tangential _ _ _ rfl

/-- Witness for C1: the witness object at rest one metre from the center is
inside the surface, so the first step grounds it. -/
theorem free_flight_surface_snap_witness :
    wObj.state = ObjectState.FreeFlight
    ∧ 0 < checkR fZero wObj
    ∧ checkR fZero wObj < checkEarthR fZero wObj
    ∧ (Object.stepWith fZero wObj).state = ObjectState.ConstantAltitude 0 := by
  have h1 : wObj.state = ObjectState.FreeFlight := rfl
  have h2 : 0 < checkR fZero wObj := by
    rw [wobj_checkR]
    norm_num
  have h3 : checkR fZero wObj < checkEarthR fZero wObj := by
    rw [wobj_checkR, wobj_checkEarthR]
    norm_num [R_POL]
  exact ⟨h1, h2, h3, (free_flight_surface_snap fZero wObj h1 h2 h3).2.1⟩

end CoriolisSim

